import Mathlib

/-!
# Verification of the phantomSpell real-time DSP signal-hygiene pipeline

Shallow embedding of `scripts/pieeg_ws_bridge_dsp.py` (DSP filter classes and
the `DSPPipeline` orchestrator).  Floating-point numbers are modelled by exact
rationals (`ℚ`), numpy channel vectors by `List ℚ`, per-channel loops over
`range(num_channels)` by lockstep structural recursion (identical under the
length invariant `len = num_channels` that the program maintains).

The scipy filter-design routines (`butter`, `iirnotch`, `tf2sos`) are external
to the repository; their *validation* behaviour (raising `ValueError` /
`ZeroDivisionError` for out-of-range normalized cutoffs) is modelled per the
scipy documentation, while the numeric coefficient values they return are
abstract placeholders — no claim below depends on coefficient values, only on
cascade structure, state threading and construction-time validation.
-/

/-- One second-order section (biquad) with `a0` normalized to 1, as produced by
`scipy.signal.butter(..., output='sos')` / `tf2sos`. -/
structure SOSection where
  b0 : ℚ
  b1 : ℚ
  b2 : ℚ
  a1 : ℚ
  a2 : ℚ
deriving DecidableEq

/-- One sample through a cascade of second-order sections, direct-form II
transposed (the recursion implemented by `scipy.signal.sosfilt`): for each
section `y = b0*x + z0`, `z0' = b1*x - a1*y + z1`, `z1' = b2*x - a2*y`, the
output of each section feeding the next.  A missing state entry is treated as
`(0, 0)` (scipy's zero initial state); in the program the state list always has
one `(z0, z1)` pair per section. -/
def sosStep : List SOSection → ℚ → List (ℚ × ℚ) → ℚ × List (ℚ × ℚ)
  | [], x, zi => (x, zi)
  | s :: rest, x, z :: zs =>
    let y := s.b0 * x + z.1
    let r := sosStep rest y zs
    (r.1, (s.b1 * x - s.a1 * y + z.2, s.b2 * x - s.a2 * y) :: r.2)
  | s :: rest, x, [] =>
    let y := s.b0 * x + 0
    let r := sosStep rest y []
    (r.1, (s.b1 * x - s.a1 * y + 0, s.b2 * x - s.a2 * y) :: r.2)

/-- `scipy.signal.sosfilt` on a 1-D signal with initial conditions `zi`:
streams the samples through `sosStep`, threading the section states, and
returns the filtered signal together with the final states. -/
def sosfilt (sos : List SOSection) : List ℚ → List (ℚ × ℚ) → List ℚ × List (ℚ × ℚ)
  | [], zi => ([], zi)
  | x :: xs, zi =>
    let h := sosStep sos x zi
    let r := sosfilt sos xs h.2
    (h.1 :: r.1, r.2)

/-- `DCBlocker`: first-order IIR DC blocking filter
`y[n] = x[n] - x[n-1] + α·y[n-1]`, independent per channel. -/
structure DCBlocker where
  alpha : ℚ
  num_channels : ℕ
  x_prev : List ℚ
  y_prev : List ℚ
deriving DecidableEq

/-- `DCBlocker.__init__`: zero state per channel. -/
def DCBlocker.init (alpha : ℚ) (num_channels : ℕ) : DCBlocker :=
  ⟨alpha, num_channels, List.replicate num_channels 0, List.replicate num_channels 0⟩

/-- Elementwise `sample - x_prev + alpha * y_prev` (numpy broadcasting over
equal-length channel vectors). -/
def dcElementwise (alpha : ℚ) : List ℚ → List ℚ → List ℚ → List ℚ
  | x :: xs, p :: ps, q :: qs => (x - p + alpha * q) :: dcElementwise alpha xs ps qs
  | _, _, _ => []

/-- `DCBlocker.process`: `y = sample - x_prev + α*y_prev`; stores the sample
and the output as the new state. -/
def DCBlocker.process (d : DCBlocker) (sample : List ℚ) : List ℚ × DCBlocker :=
  let y := dcElementwise d.alpha sample d.x_prev d.y_prev
  (y, { d with x_prev := sample, y_prev := y })

/-- `DCBlocker.reset`: `x_prev.fill(0); y_prev.fill(0)` (shape-preserving). -/
def DCBlocker.reset (d : DCBlocker) : DCBlocker :=
  { d with x_prev := d.x_prev.map (fun _ => 0), y_prev := d.y_prev.map (fun _ => 0) }

/-- `IIRFilter`: stateful sosfilt wrapper; `zi` holds one `(n_sections, 2)`
state block per channel. -/
structure IIRFilter where
  sos : List SOSection
  num_channels : ℕ
  zi : List (List (ℚ × ℚ))
deriving DecidableEq

/-- `IIRFilter.__init__`: `zi = np.zeros((num_channels, n_sections, 2))`. -/
def IIRFilter.init (sos : List SOSection) (num_channels : ℕ) : IIRFilter :=
  ⟨sos, num_channels, List.replicate num_channels (List.replicate sos.length (0, 0))⟩

/-- `IIRFilter.process`: for each channel, filter the one-sample list
`[sample[ch]]` with `sosfilt`, updating that channel's state. -/
def IIRFilter.process (f : IIRFilter) (sample : List ℚ) : List ℚ × IIRFilter :=
  let res := (List.range f.num_channels).map
    (fun ch => sosfilt f.sos [sample.getD ch 0] (f.zi.getD ch []))
  (res.map (fun pr => pr.1.getD 0 0), { f with zi := res.map Prod.snd })

/-- `IIRFilter.process_batch`: for each channel, filter the whole column
`samples[:, ch]` with `sosfilt` starting from that channel's current state;
the output matrix is re-assembled row by row. -/
def IIRFilter.process_batch (f : IIRFilter) (samples : List (List ℚ)) :
    List (List ℚ) × IIRFilter :=
  let res := (List.range f.num_channels).map
    (fun ch => sosfilt f.sos (samples.map (fun row => row.getD ch 0)) (f.zi.getD ch []))
  ((List.range samples.length).map (fun i => res.map (fun pr => pr.1.getD i 0)),
   { f with zi := res.map Prod.snd })

/-- `IIRFilter.reset`: `zi.fill(0)` (shape-preserving). -/
def IIRFilter.reset (f : IIRFilter) : IIRFilter :=
  { f with zi := f.zi.map (fun zc => zc.map (fun _ => (0, 0))) }

/-- Row-wise sequential driver: `process` applied to each sample in order,
threading the filter state — the reference behaviour that `process_batch`
must reproduce (spec §4.2 / §8). -/
def IIRFilter.processSeq (f : IIRFilter) : List (List ℚ) → List (List ℚ) × IIRFilter
  | [] => ([], f)
  | s :: ss =>
    let h := f.process s
    let r := h.2.processSeq ss
    (h.1 :: r.1, r.2)

/-- Model of `scipy.signal.iirnotch(freq, Q, fs)` followed by `tf2sos`
(`IIRFilter.create_notch`): scipy validates `0 < freq < fs/2` (with a
`ZeroDivisionError` when `fs = 0`) and returns one biquad section; the
coefficient values are abstract (no claim depends on them). -/
def scipy_iirnotch (freq Q fs : ℚ) : Except String (List SOSection) :=
  if fs = 0 then .error "ZeroDivisionError"
  else if 0 < freq ∧ freq < fs / 2 then .ok [⟨1, -2 * (freq / fs), 1, -2 * (freq / fs) * Q / Q, 0⟩]
  else .error "ValueError: frequency out of range"

/-- Model of `scipy.signal.butter(order, [low, high], btype='band',
output='sos')`: scipy validates `0 < low < high < 1` (normalized to Nyquist)
and returns `order` biquad sections for a band filter; the coefficient values
are abstract (no claim depends on them). -/
def scipy_butter_band (order : ℕ) (low high : ℚ) : Except String (List SOSection) :=
  if 0 < low ∧ low < high ∧ high < 1 then
    .ok (List.replicate order ⟨low, high, 0, 0, 0⟩)
  else .error "ValueError: Digital filter critical frequencies must be 0 < Wn < 1"

/-- `IIRFilter.create_notch(freq, fs, Q, num_channels)`. -/
def IIRFilter.create_notch (freq fs Q : ℚ) (num_channels : ℕ) : Except String IIRFilter :=
  (scipy_iirnotch freq Q fs).map (fun sos => IIRFilter.init sos num_channels)

/-- `IIRFilter.create_bandpass(lowcut, highcut, fs, order, num_channels)`:
`nyq = fs/2; low = lowcut/nyq; high = highcut/nyq; butter(...)`.  The division
by `nyq` raises `ZeroDivisionError` in Python when `nyq = 0`. -/
def IIRFilter.create_bandpass (lowcut highcut fs : ℚ) (order : ℕ) (num_channels : ℕ) :
    Except String IIRFilter :=
  let nyq := fs / 2
  if nyq = 0 then .error "ZeroDivisionError"
  else
    (scipy_butter_band order (lowcut / nyq) (highcut / nyq)).map
      (fun sos => IIRFilter.init sos num_channels)

/-- `NotchFilterBank`: a list of notch `IIRFilter`s, one per harmonic below
Nyquist. -/
structure NotchFilterBank where
  filters : List IIRFilter
deriving DecidableEq

/-- The harmonic loop of `NotchFilterBank.__init__` over the (1-based)
harmonic indices: a notch at `fundamental * i` is added when that frequency is
`< fs/2`, otherwise the harmonic is skipped. -/
def notchBankBuild (fundamental fs Q : ℚ) (num_channels : ℕ) :
    List ℕ → Except String (List IIRFilter)
  | [] => .ok []
  | i :: is' =>
    if fundamental * i < fs / 2 then
      (IIRFilter.create_notch (fundamental * i) fs Q num_channels).bind (fun notch =>
        (notchBankBuild fundamental fs Q num_channels is').map (fun rest => notch :: rest))
    else notchBankBuild fundamental fs Q num_channels is'

/-- `NotchFilterBank.__init__`: for `i in 1..num_harmonics`, add a notch at
`fundamental * i` when that frequency is `< fs/2`. -/
def NotchFilterBank.init (fundamental fs : ℚ) (num_harmonics : ℕ) (Q : ℚ)
    (num_channels : ℕ) : Except String NotchFilterBank :=
  (notchBankBuild fundamental fs Q num_channels
    ((List.range num_harmonics).map (· + 1))).map NotchFilterBank.mk

/-- Series application of the notch filters (`NotchFilterBank.process`'s loop),
threading each filter's state. -/
def notchFold : List IIRFilter → List ℚ → List ℚ × List IIRFilter
  | [], s => (s, [])
  | f :: fs, s =>
    let h := f.process s
    let r := notchFold fs h.1
    (r.1, h.2 :: r.2)

/-- `NotchFilterBank.process`: apply all notch filters in series. -/
def NotchFilterBank.process (nb : NotchFilterBank) (sample : List ℚ) :
    List ℚ × NotchFilterBank :=
  let r := notchFold nb.filters sample
  (r.1, ⟨r.2⟩)

/-- `NotchFilterBank.reset`: reset every constituent filter. -/
def NotchFilterBank.reset (nb : NotchFilterBank) : NotchFilterBank :=
  ⟨nb.filters.map IIRFilter.reset⟩

/-- `ArtifactRejector`: amplitude-threshold detector with per-channel blanking.
The blanking counters are natural numbers (the program stores non-negative
ints: they are only set to `blanking_samples` or decremented while positive). -/
structure ArtifactRejector where
  threshold : ℚ
  blanking_samples : ℕ
  num_channels : ℕ
  blanking_counter : List ℕ
  last_good : List ℚ
  artifact_count : ℕ
  total_samples : ℕ
deriving DecidableEq

/-- `ArtifactRejector.__init__`. -/
def ArtifactRejector.init (threshold_uv : ℚ) (blanking_samples : ℕ)
    (num_channels : ℕ) : ArtifactRejector :=
  ⟨threshold_uv, blanking_samples, num_channels,
   List.replicate num_channels 0, List.replicate num_channels 0, 0, 0⟩

/-- Result of the per-channel loop in `ArtifactRejector.process`. -/
structure ARLoopOut where
  cleaned : List ℚ
  flags : List Bool
  counters : List ℕ
  lastGood : List ℚ
  detections : ℕ
deriving DecidableEq

/-- The loop body of `ArtifactRejector.process` for one channel:
blanking (`counter > 0`) → hold last good, decrement, flag;
new artifact (`|x| > threshold`) → hold last good, start blanking, flag;
otherwise → pass through and record the new last-good value.
Returns `(cleaned, flag, counter', last_good')`. -/
def chStep (θ : ℚ) (blank : ℕ) (x : ℚ) (c : ℕ) (g : ℚ) : ℚ × Bool × ℕ × ℚ :=
  if 0 < c then (g, true, c - 1, g)
  else if θ < |x| then (g, true, blank, g)
  else (x, false, c, x)

/-- The `for ch in range(num_channels)` loop of `ArtifactRejector.process` as a
lockstep recursion over the sample, counter and last-good vectors (identical to
the indexed loop under the program's length invariant), also counting the
newly detected artifacts (`artifact_count` increments). -/
def artifactLoop (θ : ℚ) (blank : ℕ) :
    List ℚ → List ℕ → List ℚ → ARLoopOut
  | x :: xs, c :: cs, g :: gs =>
    let r := artifactLoop θ blank xs cs gs
    if 0 < c then
      ⟨g :: r.cleaned, true :: r.flags, (c - 1) :: r.counters, g :: r.lastGood, r.detections⟩
    else if θ < |x| then
      ⟨g :: r.cleaned, true :: r.flags, blank :: r.counters, g :: r.lastGood, r.detections + 1⟩
    else
      ⟨x :: r.cleaned, false :: r.flags, c :: r.counters, x :: r.lastGood, r.detections⟩
  | _, _, _ => ⟨[], [], [], [], 0⟩

/-- `ArtifactRejector.process`: returns `(cleaned, flags)` and the updated
state; `total_samples` increments once per call, `artifact_count` by the number
of new detections. -/
def ArtifactRejector.process (a : ArtifactRejector) (sample : List ℚ) :
    (List ℚ × List Bool) × ArtifactRejector :=
  let r := artifactLoop a.threshold a.blanking_samples sample a.blanking_counter a.last_good
  ((r.cleaned, r.flags),
   { a with blanking_counter := r.counters, last_good := r.lastGood,
            artifact_count := a.artifact_count + r.detections,
            total_samples := a.total_samples + 1 })

/-- `ArtifactRejector.get_artifact_rate`: percentage of samples counted as
artifacts. -/
def ArtifactRejector.get_artifact_rate (a : ArtifactRejector) : ℚ :=
  if a.total_samples = 0 then 0
  else ((a.artifact_count : ℚ) / (a.total_samples : ℚ)) * 100

/-- `ArtifactRejector.reset`. -/
def ArtifactRejector.reset (a : ArtifactRejector) : ArtifactRejector :=
  { a with blanking_counter := a.blanking_counter.map (fun _ => 0),
           last_good := a.last_good.map (fun _ => 0),
           artifact_count := 0, total_samples := 0 }

/-- `CommonAverageReference`: subtract the mean of the non-excluded channels
from every channel. -/
structure CommonAverageReference where
  num_channels : ℕ
  exclude : List ℕ
deriving DecidableEq

/-- `CommonAverageReference.process`: boolean mask over `range(num_channels)`
(out-of-range exclusion indices simply never match); if no channel remains the
sample is returned unchanged, otherwise the masked mean is subtracted from
every channel. -/
def CommonAverageReference.process (c : CommonAverageReference) (sample : List ℚ) :
    List ℚ :=
  let mask := (List.range c.num_channels).map (fun ch => !(c.exclude.contains ch))
  if mask.count true = 0 then sample
  else
    let selected := ((sample.zip mask).filterMap (fun p => if p.2 then some p.1 else none))
    let avg := selected.sum / (selected.length : ℚ)
    sample.map (fun x => x - avg)

/-- `ExponentialSmoother`: exponential moving average; `seeded` renders the
source's `initialized` flag. -/
structure ExponentialSmoother where
  alpha : ℚ
  num_channels : ℕ
  ema : List ℚ
  seeded : Bool
deriving DecidableEq

/-- `ExponentialSmoother.__init__`. -/
def ExponentialSmoother.init (alpha : ℚ) (num_channels : ℕ) : ExponentialSmoother :=
  ⟨alpha, num_channels, List.replicate num_channels 0, false⟩

/-- `ExponentialSmoother.process`: first call seeds the EMA with the sample and
returns it unchanged; afterwards `ema = α*sample + (1-α)*ema`. -/
def ExponentialSmoother.process (e : ExponentialSmoother) (sample : List ℚ) :
    List ℚ × ExponentialSmoother :=
  if e.seeded = false then
    (sample, { e with ema := sample, seeded := true })
  else
    let m := List.zipWith (fun x v => e.alpha * x + (1 - e.alpha) * v) sample e.ema
    (m, { e with ema := m })

/-- `ExponentialSmoother.reset`: zero the accumulator, clear the seeded flag. -/
def ExponentialSmoother.reset (e : ExponentialSmoother) : ExponentialSmoother :=
  { e with ema := e.ema.map (fun _ => 0), seeded := false }

/-- `DSPConfig` dataclass with its source defaults. -/
structure DSPConfig where
  sample_rate : ℚ := 250
  num_channels : ℕ := 8
  dc_block_enabled : Bool := true
  dc_block_alpha : ℚ := 995 / 1000
  notch_enabled : Bool := true
  notch_freq : ℚ := 60
  notch_harmonics : ℕ := 3
  notch_q : ℚ := 30
  bandpass_enabled : Bool := true
  highpass_freq : ℚ := 1 / 2
  lowpass_freq : ℚ := 45
  filter_order : ℕ := 4
  artifact_enabled : Bool := true
  artifact_threshold : ℚ := 150
  artifact_blanking : ℕ := 5
  car_enabled : Bool := false
  car_exclude_channels : List ℕ := []
  smoothing_enabled : Bool := false
  smoothing_alpha : ℚ := 3 / 10
deriving DecidableEq

/-- A filter-chain stage: the closed set of variants whose bound `process`
methods the source appends to `DSPPipeline.filters`. -/
inductive Stage where
  | dc (d : DCBlocker)
  | notch (nb : NotchFilterBank)
  | bp (f : IIRFilter)
  | car (c : CommonAverageReference)
  | smooth (e : ExponentialSmoother)
deriving DecidableEq

/-- Dispatch of the shared `process(sample) -> sample` capability, returning
the stage's updated state alongside the output (CAR is stateless). -/
def Stage.process : Stage → List ℚ → List ℚ × Stage
  | .dc d, s => let h := d.process s; (h.1, .dc h.2)
  | .notch nb, s => let h := nb.process s; (h.1, .notch h.2)
  | .bp f, s => let h := f.process s; (h.1, .bp h.2)
  | .car c, s => (c.process s, .car c)
  | .smooth e, s => let h := e.process s; (h.1, .smooth h.2)

/-- `DSPPipeline`: the ordered filter chain (name, stage) plus the separately
held artifact rejector and the last computed flags. -/
structure DSPPipeline where
  config : DSPConfig
  filters : List (String × Stage)
  artifact_rejector : Option ArtifactRejector
  artifact_flags : List Bool
deriving DecidableEq

/-- `_build_pipeline` step 1: DC blocker when enabled. -/
def dcPart (cfg : DSPConfig) : List (String × Stage) :=
  if cfg.dc_block_enabled then
    [("DC Block", .dc (DCBlocker.init cfg.dc_block_alpha cfg.num_channels))]
  else []

/-- `_build_pipeline` step 2: notch bank when enabled (scipy assumed
available); construction of a constituent notch may raise. -/
def notchPart (cfg : DSPConfig) : Except String (List (String × Stage)) :=
  if cfg.notch_enabled then
    (NotchFilterBank.init cfg.notch_freq cfg.sample_rate cfg.notch_harmonics
      cfg.notch_q cfg.num_channels).map (fun nb => [("Notch", .notch nb)])
  else .ok []

/-- `_build_pipeline` step 3: Butterworth bandpass when enabled; scipy's
`butter` may raise on invalid normalized cutoffs. -/
def bandpassPart (cfg : DSPConfig) : Except String (List (String × Stage)) :=
  if cfg.bandpass_enabled then
    (IIRFilter.create_bandpass cfg.highpass_freq cfg.lowpass_freq cfg.sample_rate
      cfg.filter_order cfg.num_channels).map (fun bp => [("Bandpass", .bp bp)])
  else .ok []

/-- `_build_pipeline` step 5: CAR when enabled. -/
def carPart (cfg : DSPConfig) : List (String × Stage) :=
  if cfg.car_enabled then
    [("CAR", .car ⟨cfg.num_channels, cfg.car_exclude_channels⟩)]
  else []

/-- `_build_pipeline` step 6: exponential smoother when enabled. -/
def smoothPart (cfg : DSPConfig) : List (String × Stage) :=
  if cfg.smoothing_enabled then
    [("Smooth", .smooth (ExponentialSmoother.init cfg.smoothing_alpha cfg.num_channels))]
  else []

/-- The filter chain assembled by `_build_pipeline` in source order:
DC block, notch bank, bandpass, CAR, smoothing.  The artifact rejector is
deliberately not part of this chain (source comment: "Don't add to filter
chain - handle separately for flags"). -/
def buildFilters (cfg : DSPConfig) : Except String (List (String × Stage)) :=
  (notchPart cfg).bind (fun f1 =>
    (bandpassPart cfg).bind (fun f2 =>
      .ok (dcPart cfg ++ f1 ++ f2 ++ carPart cfg ++ smoothPart cfg)))

/-- `DSPPipeline.__init__` / `_build_pipeline`: the artifact rejector is
instantiated whenever `artifact_enabled` is set (no threshold check here). -/
def DSPPipeline.build (cfg : DSPConfig) : Except String DSPPipeline :=
  (buildFilters cfg).map (fun fs =>
    { config := cfg
      filters := fs
      artifact_rejector :=
        if cfg.artifact_enabled then
          some (ArtifactRejector.init cfg.artifact_threshold cfg.artifact_blanking
            cfg.num_channels)
        else none
      artifact_flags := List.replicate cfg.num_channels false })

/-- The method names defined in the body of `class DSPPipeline` in the
source. -/
def DSPPipeline.methodNames : List String :=
  ["__init__", "_build_pipeline", "process", "process_batch", "get_stats"]

/-- The `for name, filter_fn in self.filters` loop of `DSPPipeline.process`:
each stage consumes the previous stage's output; the stages' updated states
are collected back in order. -/
def foldStages : List (String × Stage) → List ℚ → List ℚ × List (String × Stage)
  | [], s => (s, [])
  | (nm, st) :: rest, s =>
    let h := st.process s
    let r := foldStages rest h.1
    (r.1, (nm, h.2) :: r.2)

/-- `DSPPipeline.process`: run the filter chain, then artifact detection
(when configured), returning `(cleaned, flags)` and the updated pipeline.
`sample.astype(np.float64)` is an identity on exact rationals (it copies; the
embedding is pure). -/
def DSPPipeline.process (p : DSPPipeline) (sample : List ℚ) :
    (List ℚ × List Bool) × DSPPipeline :=
  let h := foldStages p.filters sample
  match p.artifact_rejector with
  | some ar =>
    let r := ar.process h.1
    ((r.1.1, r.1.2),
     { p with filters := h.2, artifact_rejector := some r.2, artifact_flags := r.1.2 })
  | none =>
    ((h.1, List.replicate p.config.num_channels false),
     { p with filters := h.2,
              artifact_flags := List.replicate p.config.num_channels false })

/-- `DSPPipeline.process_batch`: `for i in range(num_samples): output[i],
flags[i] = self.process(samples[i])` — row-wise sequential application of
`process`. -/
def DSPPipeline.process_batch (p : DSPPipeline) :
    List (List ℚ) → (List (List ℚ) × List (List Bool)) × DSPPipeline
  | [] => (([], []), p)
  | s :: ss =>
    let h := p.process s
    let r := h.2.process_batch ss
    ((h.1.1 :: r.1.1, h.1.2 :: r.1.2), r.2)

/-- Row-wise sequential reference driver for the pipeline: `process` applied
to each row in order (spec §5: batch must not change outcomes versus
sequential per-sample calls). -/
def DSPPipeline.processSeq (p : DSPPipeline) :
    List (List ℚ) → (List (List ℚ) × List (List Bool)) × DSPPipeline
  | [] => (([], []), p)
  | s :: ss =>
    let h := p.process s
    let r := h.2.processSeq ss
    ((h.1.1 :: r.1.1, h.1.2 :: r.1.2), r.2)

/-- The CLI options of `parse_args` that feed the DSP configuration, with
their source defaults. -/
structure CLIArgs where
  sample_rate : ℚ := 250
  channels : ℕ := 8
  no_dc_block : Bool := false
  dc_alpha : ℚ := 995 / 1000
  no_notch : Bool := false
  notch : ℚ := 60
  notch_harmonics : ℕ := 3
  notch_q : ℚ := 30
  no_bandpass : Bool := false
  highpass : ℚ := 1 / 2
  lowpass : ℚ := 45
  filter_order : ℕ := 4
  no_artifact : Bool := false
  artifact_threshold : ℚ := 150
  car : Bool := false
  car_exclude : List ℕ := []
  smooth : ℚ := 0
deriving DecidableEq

/-- The `DSPConfig(...)` built in `main()` from the parsed CLI arguments.
Note `artifact_enabled = (not no_artifact) and (artifact_threshold > 0)` and
`smoothing_enabled = smooth > 0`: threshold-based disabling happens here, in
the CLI layer. -/
def mainDSPConfig (args : CLIArgs) : DSPConfig :=
  { sample_rate := args.sample_rate
    num_channels := args.channels
    dc_block_enabled := !args.no_dc_block
    dc_block_alpha := args.dc_alpha
    notch_enabled := !args.no_notch
    notch_freq := args.notch
    notch_harmonics := args.notch_harmonics
    notch_q := args.notch_q
    bandpass_enabled := !args.no_bandpass
    highpass_freq := args.highpass
    lowpass_freq := args.lowpass
    filter_order := args.filter_order
    artifact_enabled := !args.no_artifact && decide (0 < args.artifact_threshold)
    artifact_threshold := args.artifact_threshold
    car_enabled := args.car
    car_exclude_channels := args.car_exclude
    smoothing_enabled := decide (0 < args.smooth)
    smoothing_alpha := if 0 < args.smooth then args.smooth else 3 / 10 }

/-! ## Specification-side definitions used to state the claims -/

/-- The canonical stage-name order the spec prescribes for the filter chain:
DC block, notch, bandpass, CAR, smoothing (each present iff enabled). -/
def canonicalStageNames (cfg : DSPConfig) : List String :=
  (if cfg.dc_block_enabled then ["DC Block"] else []) ++
  (if cfg.notch_enabled then ["Notch"] else []) ++
  (if cfg.bandpass_enabled then ["Bandpass"] else []) ++
  (if cfg.car_enabled then ["CAR"] else []) ++
  (if cfg.smoothing_enabled then ["Smooth"] else [])

/-- The processing order asserted by claim C1 (artifact thresholding after the
DC/notch/bandpass filter chain but *before* the CAR and smoothing stages),
written from the claim's words for comparison against `DSPPipeline.process`. -/
def claimOrderProcess (p : DSPPipeline) (sample : List ℚ) : List ℚ × List Bool :=
  let pre := p.filters.filter (fun st => st.1 != "CAR" && st.1 != "Smooth")
  let post := p.filters.filter (fun st => st.1 == "CAR" || st.1 == "Smooth")
  let o1 := (foldStages pre sample).1
  match p.artifact_rejector with
  | some ar =>
    let r := ar.process o1
    ((foldStages post r.1.1).1, r.1.2)
  | none => ((foldStages post o1).1, List.replicate p.config.num_channels false)

/-- Sequential multi-sample driver for the artifact rejector: `process`
applied to each sample in order, collecting the per-call results. -/
def ArtifactRejector.run (a : ArtifactRejector) :
    List (List ℚ) → List (List ℚ × List Bool) × ArtifactRejector
  | [] => ([], a)
  | s :: ss =>
    let h := a.process s
    let r := h.2.run ss
    (h.1 :: r.1, r.2)

/-- Total number of `(sample, channel)` pairs flagged as artifacts over a
run's outputs. -/
def runFlagsTotal (outs : List (List ℚ × List Bool)) : ℕ :=
  (outs.map (fun o => o.2.count true)).sum

/-- Total number of `(sample, channel)` pairs replaced during an ongoing
blanking window over a run: at each step, the channels whose blanking counter
is still positive. -/
def ArtifactRejector.runBlankedTotal (a : ArtifactRejector) : List (List ℚ) → ℕ
  | [] => 0
  | s :: ss =>
    a.blanking_counter.countP (fun c => decide (0 < c)) +
      (a.process s).2.runBlankedTotal ss

/-- Rejector states reachable from construction by sequential `process`
calls. -/
inductive ArtifactRejector.Reachable (θ : ℚ) (blank n : ℕ) : ArtifactRejector → Prop
  | init : ArtifactRejector.Reachable θ blank n (ArtifactRejector.init θ blank n)
  | step (a : ArtifactRejector) (sample : List ℚ) :
      ArtifactRejector.Reachable θ blank n a →
      ArtifactRejector.Reachable θ blank n (a.process sample).2

/-- Sum of a CAR output over the non-excluded in-range channels (the
quantity whose mean the spec asserts is exactly zero). -/
def carMaskedSum (c : CommonAverageReference) (v : List ℚ) : ℚ :=
  ((v.zip ((List.range c.num_channels).map (fun ch => !(c.exclude.contains ch)))).filterMap
    (fun p => if p.2 then some p.1 else none)).sum

/-! ### Concrete instances used by counterexamples and witnesses -/

/-- C1 counterexample configuration: CAR and artifact rejection enabled
together (scipy-designed stages off so construction is fully concrete). -/
def cfgC1 : DSPConfig :=
  { dc_block_enabled := false, notch_enabled := false, bandpass_enabled := false,
    artifact_enabled := true, artifact_threshold := 10, artifact_blanking := 0,
    car_enabled := true, num_channels := 2 }

/-- C1 witness configuration: DC blocker only, artifact rejection off. -/
def cfgC1w : DSPConfig :=
  { notch_enabled := false, bandpass_enabled := false, artifact_enabled := false }

/-- The pipeline `DSPPipeline.build cfgC1w` produces. -/
def pC1w : DSPPipeline :=
  { config := cfgC1w
    filters := [("DC Block", .dc (DCBlocker.init (995 / 1000) 8))]
    artifact_rejector := none
    artifact_flags := List.replicate 8 false }

/-- C4 counterexample configuration: `artifact_enabled` with threshold 0,
handed directly to the orchestrator. -/
def cfgC4 : DSPConfig :=
  { dc_block_enabled := false, notch_enabled := false, bandpass_enabled := false,
    artifact_enabled := true, artifact_threshold := 0, artifact_blanking := 5,
    num_channels := 1 }

/-- C4 witness CLI arguments: threshold 0, all other DSP stages switched off
so the built pipeline is fully concrete. -/
def argsC4 : CLIArgs :=
  { no_dc_block := true, no_notch := true, no_bandpass := true, artifact_threshold := 0 }

/-- The pipeline `DSPPipeline.build (mainDSPConfig argsC4)` produces. -/
def pC4w : DSPPipeline :=
  { config := mainDSPConfig argsC4
    filters := []
    artifact_rejector := none
    artifact_flags := List.replicate 8 false }

/-- C5 counterexample configuration: every default, but zero channels. -/
def cfgC5 : DSPConfig := { num_channels := 0 }

/-- C5 witness configuration: default bandpass with requested high-pass (low
cutoff) 130 Hz ≥ Nyquist (125 Hz at 250 SPS). -/
def cfgC5w : DSPConfig := { highpass_freq := 130 }

/-- C2 witness filter: two biquad sections, two channels, zero state. -/
def iirC2w : IIRFilter :=
  IIRFilter.init [⟨1 / 2, 1 / 3, 1 / 4, 1 / 5, 1 / 6⟩, ⟨2, 1, 0, 1 / 7, 0⟩] 2

/-- C2 witness pipeline: DC blocker and artifact rejection, one channel. -/
def pC2w : DSPPipeline :=
  { config := { notch_enabled := false, bandpass_enabled := false, num_channels := 1 }
    filters := [("DC Block", .dc (DCBlocker.init (995 / 1000) 1))]
    artifact_rejector := some (ArtifactRejector.init 150 5 1)
    artifact_flags := [false] }

/-- C3 witness DC blocker: non-zero state of the construction shape. -/
def dcC3w : DCBlocker := ⟨1 / 2, 2, [3, 4], [5, 6]⟩

/-- C6 witness rejector: threshold 10 µV, blanking window 2, one channel. -/
def arC6w : ArtifactRejector := ArtifactRejector.init 10 2 1

/-- Decidable equality of `Except` results (for evaluating construction
outcomes in witnesses). -/
instance exceptDecidableEq {ε α : Type} [DecidableEq ε] [DecidableEq α] :
    DecidableEq (Except ε α) := fun a b =>
  match a, b with
  | .ok x, .ok y =>
    if h : x = y then .isTrue (by rw [h]) else .isFalse (fun he => h (Except.ok.inj he))
  | .error x, .error y =>
    if h : x = y then .isTrue (by rw [h]) else .isFalse (fun he => h (Except.error.inj he))
  | .ok _, .error _ => .isFalse (fun he => Except.noConfusion he)
  | .error _, .ok _ => .isFalse (fun he => Except.noConfusion he)

/-! ## Helper lemmas -/

theorem list_map_const {α β : Type} (l : List α) (b : β) :
    l.map (fun _ => b) = List.replicate l.length b := by
  induction l with
  | nil => rfl
  | cons a t ih => simp [List.replicate_succ, ih]

theorem getD_range_map {α : Type} (g : ℕ → α) (d : α) {ch n : ℕ} (h : ch < n) :
    ((List.range n).map g).getD ch d = g ch := by
  rw [List.getD_eq_getElem?_getD, List.getElem?_map, List.getElem?_range h]
  rfl

theorem range_map_getD {α : Type} (l : List α) (d : α) :
    (List.range l.length).map (fun i => l.getD i d) = l := by
  induction l with
  | nil => rfl
  | cons a t ih =>
    rw [List.length_cons, List.range_succ_eq_map]
    simp only [List.map_cons, List.map_map]
    refine congrArg₂ _ rfl ?_
    have hc : ((fun i => (a :: t).getD i d) ∘ Nat.succ) = (fun i => t.getD i d) := by
      funext i
      simp [List.getD_cons_succ]
    rw [hc, ih]

theorem sosfilt_nil (sos : List SOSection) (zi : List (ℚ × ℚ)) :
    sosfilt sos [] zi = ([], zi) := rfl

theorem sosfilt_cons (sos : List SOSection) (x : ℚ) (xs : List ℚ)
    (zi : List (ℚ × ℚ)) :
    sosfilt sos (x :: xs) zi =
      ((sosStep sos x zi).1 :: (sosfilt sos xs (sosStep sos x zi).2).1,
       (sosfilt sos xs (sosStep sos x zi).2).2) := rfl

/-! ## C3: reset semantics -/

/-- **C3 counterexample.** The claim asserts that the pipeline provides a
reset operation; the `DSPPipeline` class defines no `reset` method (only the
individual stages do). -/
theorem C3_counterexample : "reset" ∉ DSPPipeline.methodNames := by decide

/-- **C3 (amended).** Every constituent stage — DC blocker, IIR filter, notch
bank, artifact rejector, exponential smoother — provides a `reset` that
returns its internal state to the construction-time zero state while keeping
its construction parameters (coefficients, α, threshold, blanking length)
unchanged, i.e. without recomputing filter coefficients; the `DSPPipeline`
orchestrator itself exposes no reset operation. -/
theorem C3_stage_resets :
    (∀ d : DCBlocker, d.x_prev.length = d.num_channels →
      d.y_prev.length = d.num_channels →
      d.reset = DCBlocker.init d.alpha d.num_channels) ∧
    (∀ f : IIRFilter, f.zi.length = f.num_channels →
      (∀ zc ∈ f.zi, zc.length = f.sos.length) →
      f.reset = IIRFilter.init f.sos f.num_channels) ∧
    (∀ nb : NotchFilterBank,
      (∀ f ∈ nb.filters, f.zi.length = f.num_channels ∧
        ∀ zc ∈ f.zi, zc.length = f.sos.length) →
      nb.reset = ⟨nb.filters.map (fun f => IIRFilter.init f.sos f.num_channels)⟩) ∧
    (∀ a : ArtifactRejector, a.blanking_counter.length = a.num_channels →
      a.last_good.length = a.num_channels →
      a.reset = ArtifactRejector.init a.threshold a.blanking_samples a.num_channels) ∧
    (∀ e : ExponentialSmoother, e.ema.length = e.num_channels →
      e.reset = ExponentialSmoother.init e.alpha e.num_channels) := by
  have hiir : ∀ f : IIRFilter, f.zi.length = f.num_channels →
      (∀ zc ∈ f.zi, zc.length = f.sos.length) →
      f.reset = IIRFilter.init f.sos f.num_channels := by
    intro f h1 h2
    cases f with
    | mk sos n zi =>
      simp only [IIRFilter.reset, IIRFilter.init]
      congr 1
      have : zi.map (fun zc => zc.map (fun _ => ((0 : ℚ), (0 : ℚ)))) =
          zi.map (fun _ => List.replicate sos.length ((0 : ℚ), (0 : ℚ))) := by
        refine List.map_congr_left ?_
        intro zc hzc
        rw [list_map_const, h2 zc hzc]
      rw [this, list_map_const, h1]
  refine ⟨?_, hiir, ?_, ?_, ?_⟩
  · intro d h1 h2
    cases d with
    | mk alpha n xp yp =>
      simp only [DCBlocker.reset, DCBlocker.init]
      rw [list_map_const, list_map_const, h1, h2]
  · intro nb h
    cases nb with
    | mk fs =>
      simp only [NotchFilterBank.reset, NotchFilterBank.mk.injEq]
      refine List.map_congr_left ?_
      intro f hf
      exact hiir f (h f hf).1 (h f hf).2
  · intro a h1 h2
    cases a with
    | mk θ b n bc lg ac ts =>
      simp only [ArtifactRejector.reset, ArtifactRejector.init]
      rw [list_map_const, list_map_const, h1, h2]
  · intro e h
    cases e with
    | mk alpha n ema seeded =>
      simp only [ExponentialSmoother.reset, ExponentialSmoother.init]
      rw [list_map_const, h]

/-- Witness for C3 (amended), instantiating the DC-blocker clause on a
concrete non-zero state. -/
theorem C3_stage_resets_witness :
    (dcC3w.x_prev.length = dcC3w.num_channels ∧
      dcC3w.y_prev.length = dcC3w.num_channels) ∧
    dcC3w.reset = DCBlocker.init dcC3w.alpha dcC3w.num_channels :=
  ⟨⟨by decide, by decide⟩, C3_stage_resets.1 dcC3w (by decide) (by decide)⟩

/-! ## C4: threshold ≤ 0 handling -/

/-- **C4 counterexample.** A configuration with `artifact_threshold = 0` and
`artifact_enabled` handed directly to the orchestrator still instantiates the
rejector, and `process` flags and replaces the first nonzero sample — the
orchestrator does not treat threshold ≤ 0 as "not configured". -/
theorem C4_counterexample :
    cfgC4.artifact_threshold ≤ 0 ∧
    (DSPPipeline.build cfgC4).map (fun p => (p.process [1]).1) = .ok ([0], [true]) := by
  constructor
  · decide
  · decide

/-- **C4 (amended).** The threshold-based disabling lives in the CLI layer,
not the orchestrator: `main()` computes
`artifact_enabled = (not no_artifact) and (artifact_threshold > 0)`, so for
every CLI argument set with `artifact_threshold ≤ 0` the pipeline built from
the resulting config has no artifact rejector and `process` never flags or
replaces any sample.  `DSPPipeline._build_pipeline` itself instantiates the
rejector whenever `artifact_enabled` is set, without checking the
threshold. -/
theorem C4_cli_threshold_disables (args : CLIArgs)
    (hθ : args.artifact_threshold ≤ 0) (p : DSPPipeline)
    (hp : DSPPipeline.build (mainDSPConfig args) = .ok p) :
    p.artifact_rejector = none ∧
    ∀ sample,
      (p.process sample).1.2 = List.replicate (mainDSPConfig args).num_channels false ∧
      (p.process sample).1.1 = (foldStages p.filters sample).1 := by
  have hen : (mainDSPConfig args).artifact_enabled = false := by
    simp only [mainDSPConfig, Bool.and_eq_false_iff]
    right
    simpa using not_lt.mpr hθ
  unfold DSPPipeline.build at hp
  cases hbf : buildFilters (mainDSPConfig args) with
  | error e => rw [hbf] at hp; exact absurd hp (by simp [Except.map])
  | ok fs =>
    rw [hbf] at hp
    simp only [Except.map, Except.ok.injEq] at hp
    subst hp
    rw [hen]
    refine ⟨rfl, ?_⟩
    intro sample
    simp [DSPPipeline.process]

/-- Witness for C4 (amended): threshold 0 on the command line. -/
theorem C4_cli_threshold_disables_witness :
    (argsC4.artifact_threshold ≤ 0 ∧
      DSPPipeline.build (mainDSPConfig argsC4) = .ok pC4w) ∧
    (pC4w.artifact_rejector = none ∧
      ∀ sample,
        (pC4w.process sample).1.2 =
          List.replicate (mainDSPConfig argsC4).num_channels false ∧
        (pC4w.process sample).1.1 = (foldStages pC4w.filters sample).1) :=
  ⟨⟨by decide, by with_unfolding_all decide⟩,
   C4_cli_threshold_disables argsC4 (by decide) pC4w (by with_unfolding_all decide)⟩

/-! ## C5: construction-time validation -/

/-- The scipy design call of the bandpass stage fails whenever the sample rate
is zero (Nyquist division raises), the sample rate is negative while the
requested low cutoff is positive, or the sample rate is positive and either
requested cutoff is at or above the Nyquist frequency. -/
theorem create_bandpass_error (cfg : DSPConfig)
    (hbad : cfg.sample_rate = 0 ∨
      (cfg.sample_rate < 0 ∧ 0 < cfg.highpass_freq) ∨
      (0 < cfg.sample_rate ∧
        (cfg.sample_rate / 2 ≤ cfg.highpass_freq ∨
         cfg.sample_rate / 2 ≤ cfg.lowpass_freq))) :
    ∃ e, IIRFilter.create_bandpass cfg.highpass_freq cfg.lowpass_freq
      cfg.sample_rate cfg.filter_order cfg.num_channels = .error e := by
  rcases hbad with heq | ⟨hlt, hl⟩ | ⟨hfs, hcut⟩
  · refine ⟨"ZeroDivisionError", ?_⟩
    have hz : cfg.sample_rate / 2 = 0 := by rw [heq]; norm_num
    simp only [IIRFilter.create_bandpass, if_pos hz]
  · have hnyq : cfg.sample_rate / 2 < 0 := div_neg_of_neg_of_pos hlt (by norm_num)
    have hne : ¬(cfg.sample_rate / 2 = 0) := ne_of_lt hnyq
    have hlow : cfg.highpass_freq / (cfg.sample_rate / 2) < 0 :=
      div_neg_of_pos_of_neg hl hnyq
    have hcond : ¬(0 < cfg.highpass_freq / (cfg.sample_rate / 2) ∧
        cfg.highpass_freq / (cfg.sample_rate / 2) <
          cfg.lowpass_freq / (cfg.sample_rate / 2) ∧
        cfg.lowpass_freq / (cfg.sample_rate / 2) < 1) :=
      fun hcon => lt_asymm hlow hcon.1
    refine ⟨"ValueError: Digital filter critical frequencies must be 0 < Wn < 1", ?_⟩
    simp only [IIRFilter.create_bandpass, if_neg hne, scipy_butter_band,
      if_neg hcond]
    rfl
  · have hnyqpos : 0 < cfg.sample_rate / 2 := half_pos hfs
    have hne : ¬(cfg.sample_rate / 2 = 0) := (ne_of_gt hnyqpos)
    have hcond : ¬(0 < cfg.highpass_freq / (cfg.sample_rate / 2) ∧
        cfg.highpass_freq / (cfg.sample_rate / 2) <
          cfg.lowpass_freq / (cfg.sample_rate / 2) ∧
        cfg.lowpass_freq / (cfg.sample_rate / 2) < 1) := by
      rcases hcut with hhp | hlp
      · have hge1 : 1 ≤ cfg.highpass_freq / (cfg.sample_rate / 2) :=
          (one_le_div hnyqpos).mpr hhp
        exact fun hcon => absurd (hcon.2.1.trans hcon.2.2) (not_lt.mpr hge1)
      · have hge1 : 1 ≤ cfg.lowpass_freq / (cfg.sample_rate / 2) :=
          (one_le_div hnyqpos).mpr hlp
        exact fun hcon => absurd hcon.2.2 (not_lt.mpr hge1)
    refine ⟨"ValueError: Digital filter critical frequencies must be 0 < Wn < 1", ?_⟩
    simp only [IIRFilter.create_bandpass, if_neg hne, scipy_butter_band,
      if_neg hcond]
    rfl

/-- A failing bandpass design makes the whole pipeline construction fail. -/
theorem build_isOk_false_of_bandpass_error (cfg : DSPConfig) (e : String)
    (h : bandpassPart cfg = .error e) : (DSPPipeline.build cfg).isOk = false := by
  unfold DSPPipeline.build buildFilters
  cases hn : notchPart cfg with
  | error e2 => rfl
  | ok f1 => rw [h]; rfl

/-- **C5 counterexample.** The claim asserts construction fails for every
configuration with a non-positive channel count; the default configuration
with `num_channels = 0` constructs successfully. -/
theorem C5_counterexample :
    cfgC5.num_channels = 0 ∧ (DSPPipeline.build cfgC5).isOk = true :=
  ⟨by decide, by with_unfolding_all decide⟩

/-- **C5 (amended).** With the bandpass stage enabled, construction fails
with an error (scipy rejects the out-of-range normalized cutoff, or the
Nyquist division raises; nothing is clamped) whenever the sample rate is
zero, the sample rate is negative with a positive requested low cutoff, or
the sample rate is positive and *either* requested cutoff is at or above the
Nyquist frequency; but a channel count of 0 is accepted (numpy happily builds
zero-length state arrays), so non-positive channel counts do not fail at
construction time. -/
theorem C5_construction_validation (cfg : DSPConfig)
    (hbp : cfg.bandpass_enabled = true)
    (hbad : cfg.sample_rate = 0 ∨
      (cfg.sample_rate < 0 ∧ 0 < cfg.highpass_freq) ∨
      (0 < cfg.sample_rate ∧
        (cfg.sample_rate / 2 ≤ cfg.highpass_freq ∨
         cfg.sample_rate / 2 ≤ cfg.lowpass_freq))) :
    (DSPPipeline.build cfg).isOk = false := by
  obtain ⟨e, he⟩ := create_bandpass_error cfg hbad
  have hbp' : bandpassPart cfg = .error e := by
    simp only [bandpassPart, hbp, if_true, he]
    rfl
  exact build_isOk_false_of_bandpass_error cfg e hbp'

/-- Witness for C5 (amended): default configuration with requested high-pass
(low) cutoff 130 Hz ≥ Nyquist (125 Hz). -/
theorem C5_construction_validation_witness :
    (cfgC5w.bandpass_enabled = true ∧
      (cfgC5w.sample_rate = 0 ∨
        (cfgC5w.sample_rate < 0 ∧ 0 < cfgC5w.highpass_freq) ∨
        (0 < cfgC5w.sample_rate ∧
          (cfgC5w.sample_rate / 2 ≤ cfgC5w.highpass_freq ∨
           cfgC5w.sample_rate / 2 ≤ cfgC5w.lowpass_freq)))) ∧
    (DSPPipeline.build cfgC5w).isOk = false :=
  ⟨⟨by decide,
    Or.inr (Or.inr ⟨by with_unfolding_all decide,
      Or.inl (by with_unfolding_all decide)⟩)⟩,
   C5_construction_validation cfgC5w (by decide)
     (Or.inr (Or.inr ⟨by with_unfolding_all decide,
       Or.inl (by with_unfolding_all decide)⟩))⟩

/-! ## C7: CAR zero mean -/

theorem zip_map_sub {α : Type} (l : List ℚ) (m : List α) (a : ℚ) :
    (l.map (fun x => x - a)).zip m = (l.zip m).map (fun p => (p.1 - a, p.2)) := by
  induction l generalizing m with
  | nil => simp
  | cons x xs ih =>
    cases m with
    | nil => simp
    | cons b bs => simp [ih]

theorem filterMap_sel_sub (l : List (ℚ × Bool)) (a : ℚ) :
    (l.map (fun p => (p.1 - a, p.2))).filterMap
        (fun p => if p.2 then some p.1 else none) =
      (l.filterMap (fun p => if p.2 then some p.1 else none)).map (fun x => x - a) := by
  induction l with
  | nil => rfl
  | cons p ps ih =>
    cases hb : p.2 with
    | false => simpa [hb] using ih
    | true => simpa [hb] using ih

theorem sel_length_eq_count (l : List ℚ) (m : List Bool) (h : l.length = m.length) :
    ((l.zip m).filterMap (fun p => if p.2 then some p.1 else none)).length =
      m.count true := by
  induction l generalizing m with
  | nil =>
    cases m with
    | nil => rfl
    | cons b bs => simp at h
  | cons x xs ih =>
    cases m with
    | nil => simp at h
    | cons b bs =>
      have h' : xs.length = bs.length := by simpa using h
      cases b with
      | false => simpa [List.count_cons] using ih bs h'
      | true => simpa [List.count_cons] using ih bs h'

theorem sum_map_sub (l : List ℚ) (a : ℚ) :
    (l.map (fun x => x - a)).sum = l.sum - (l.length : ℚ) * a := by
  induction l with
  | nil => simp
  | cons x xs ih =>
    simp only [List.map_cons, List.sum_cons, ih, List.length_cons]
    push_cast
    ring

/-- **C7.** For every input of the configured width, the CAR output sums (and
hence averages) to exactly zero over the valid, in-range, non-excluded
channels — the masked mean is subtracted from every channel — and when every
channel is excluded the output equals the input unchanged (the division-free
branch). -/
theorem C7_car_zero_mean (c : CommonAverageReference) (sample : List ℚ)
    (hlen : sample.length = c.num_channels) :
    ((((List.range c.num_channels).map (fun ch => !(c.exclude.contains ch))).count true ≠ 0 →
        carMaskedSum c (c.process sample) = 0) ∧
     (((List.range c.num_channels).map (fun ch => !(c.exclude.contains ch))).count true = 0 →
        c.process sample = sample)) := by
  constructor
  · intro h
    have hmasklen :
        ((List.range c.num_channels).map (fun ch => !(c.exclude.contains ch))).length =
          c.num_channels := by simp
    have hproc : c.process sample =
        sample.map (fun x => x -
          (((sample.zip ((List.range c.num_channels).map
              (fun ch => !(c.exclude.contains ch)))).filterMap
              (fun p => if p.2 then some p.1 else none)).sum /
           (((sample.zip ((List.range c.num_channels).map
              (fun ch => !(c.exclude.contains ch)))).filterMap
              (fun p => if p.2 then some p.1 else none)).length : ℚ))) := by
      simp only [CommonAverageReference.process, if_neg h]
    have hk : ((sample.zip ((List.range c.num_channels).map
        (fun ch => !(c.exclude.contains ch)))).filterMap
        (fun p => if p.2 then some p.1 else none)).length ≠ 0 := by
      rw [sel_length_eq_count _ _ (by rw [hmasklen, hlen])]
      exact h
    rw [carMaskedSum, hproc, zip_map_sub, filterMap_sel_sub, sum_map_sub,
      sel_length_eq_count _ _ (by rw [hmasklen, hlen])]
    have hkq : ((((List.range c.num_channels).map
        (fun ch => !(c.exclude.contains ch))).count true : ℚ)) ≠ 0 := by
      exact_mod_cast h
    rw [mul_comm, div_mul_cancel₀ _ hkq, sub_self]
  · intro h
    simp only [CommonAverageReference.process, if_pos h]

/-- Witness for C7: three channels with channel 2 excluded. -/
theorem C7_car_zero_mean_witness :
    ([(1 : ℚ), 2, 3].length = (⟨3, [2]⟩ : CommonAverageReference).num_channels) ∧
    ((((List.range (⟨3, [2]⟩ : CommonAverageReference).num_channels).map
        (fun ch => !((⟨3, [2]⟩ : CommonAverageReference).exclude.contains ch))).count true ≠ 0 →
        carMaskedSum ⟨3, [2]⟩ ((⟨3, [2]⟩ : CommonAverageReference).process [1, 2, 3]) = 0) ∧
     (((List.range (⟨3, [2]⟩ : CommonAverageReference).num_channels).map
        (fun ch => !((⟨3, [2]⟩ : CommonAverageReference).exclude.contains ch))).count true = 0 →
        (⟨3, [2]⟩ : CommonAverageReference).process [1, 2, 3] = [1, 2, 3])) :=
  ⟨by decide, C7_car_zero_mean ⟨3, [2]⟩ [1, 2, 3] (by decide)⟩

/-! ## Artifact-rejector loop lemmas (C6, C8, C9) -/

theorem artifactLoop_lengths (θ : ℚ) (b : ℕ) :
    ∀ (xs : List ℚ) (cs : List ℕ) (gs : List ℚ), xs.length = cs.length →
      cs.length = gs.length →
      (artifactLoop θ b xs cs gs).cleaned.length = xs.length ∧
      (artifactLoop θ b xs cs gs).flags.length = xs.length ∧
      (artifactLoop θ b xs cs gs).counters.length = xs.length ∧
      (artifactLoop θ b xs cs gs).lastGood.length = xs.length := by
  intro xs
  induction xs with
  | nil => intro cs gs h1 h2; simp [artifactLoop]
  | cons x xs ih =>
    intro cs gs h1 h2
    cases cs with
    | nil => simp at h1
    | cons c cs =>
      cases gs with
      | nil => simp at h2
      | cons g gs =>
        have h1' : xs.length = cs.length := by simpa using h1
        have h2' : cs.length = gs.length := by simpa using h2
        obtain ⟨l1, l2, l3, l4⟩ := ih cs gs h1' h2'
        simp only [artifactLoop]
        split_ifs <;> simp [l1, l2, l3, l4]

theorem artifactLoop_getD (θ : ℚ) (b : ℕ) :
    ∀ (xs : List ℚ) (cs : List ℕ) (gs : List ℚ) (i : ℕ), xs.length = cs.length →
      cs.length = gs.length → i < xs.length →
      (artifactLoop θ b xs cs gs).cleaned.getD i 0 =
        (chStep θ b (xs.getD i 0) (cs.getD i 0) (gs.getD i 0)).1 ∧
      (artifactLoop θ b xs cs gs).flags.getD i false =
        (chStep θ b (xs.getD i 0) (cs.getD i 0) (gs.getD i 0)).2.1 ∧
      (artifactLoop θ b xs cs gs).counters.getD i 0 =
        (chStep θ b (xs.getD i 0) (cs.getD i 0) (gs.getD i 0)).2.2.1 ∧
      (artifactLoop θ b xs cs gs).lastGood.getD i 0 =
        (chStep θ b (xs.getD i 0) (cs.getD i 0) (gs.getD i 0)).2.2.2 := by
  intro xs
  induction xs with
  | nil => intro cs gs i h1 h2 hi; simp at hi
  | cons x xs ih =>
    intro cs gs i h1 h2 hi
    cases cs with
    | nil => simp at h1
    | cons c cs =>
      cases gs with
      | nil => simp at h2
      | cons g gs =>
        cases i with
        | zero =>
          simp only [artifactLoop, chStep, List.getD_cons_zero]
          split_ifs <;> simp
        | succ i =>
          have h1' : xs.length = cs.length := by simpa using h1
          have h2' : cs.length = gs.length := by simpa using h2
          have hi' : i < xs.length := by simpa using hi
          have hrec := ih cs gs i h1' h2' hi'
          simp only [artifactLoop, List.getD_cons_succ]
          split_ifs <;> simpa using hrec

/-- Per-channel view of `ArtifactRejector.process`: under the state-length
invariant, channel `i`'s output and state update are exactly `chStep`. -/
theorem process_getD (a : ArtifactRejector) (sample : List ℚ) (i : ℕ)
    (h1 : sample.length = a.blanking_counter.length)
    (h2 : a.blanking_counter.length = a.last_good.length)
    (hi : i < sample.length) :
    (a.process sample).1.1.getD i 0 =
      (chStep a.threshold a.blanking_samples (sample.getD i 0)
        (a.blanking_counter.getD i 0) (a.last_good.getD i 0)).1 ∧
    (a.process sample).1.2.getD i false =
      (chStep a.threshold a.blanking_samples (sample.getD i 0)
        (a.blanking_counter.getD i 0) (a.last_good.getD i 0)).2.1 ∧
    (a.process sample).2.blanking_counter.getD i 0 =
      (chStep a.threshold a.blanking_samples (sample.getD i 0)
        (a.blanking_counter.getD i 0) (a.last_good.getD i 0)).2.2.1 ∧
    (a.process sample).2.last_good.getD i 0 =
      (chStep a.threshold a.blanking_samples (sample.getD i 0)
        (a.blanking_counter.getD i 0) (a.last_good.getD i 0)).2.2.2 :=
  artifactLoop_getD a.threshold a.blanking_samples sample a.blanking_counter
    a.last_good i h1 h2 hi

/-- `process` preserves the state-vector lengths. -/
theorem process_state_lengths (a : ArtifactRejector) (sample : List ℚ)
    (h1 : sample.length = a.blanking_counter.length)
    (h2 : a.blanking_counter.length = a.last_good.length) :
    (a.process sample).2.blanking_counter.length = a.blanking_counter.length ∧
    (a.process sample).2.last_good.length = a.last_good.length := by
  obtain ⟨_, _, l3, l4⟩ :=
    artifactLoop_lengths a.threshold a.blanking_samples sample a.blanking_counter
      a.last_good h1 h2
  exact ⟨by simpa [h1] using l3, by simpa [h1, h2] using l4⟩

/-- Channel `i` of a rejector whose blanking counter holds `m ≥ k` stays in
the blanking branch for the next `k` samples: every output is flagged and
held at the pre-existing last-good value, the counter ends at `m - k`, and
the last-good value is untouched. -/
theorem run_blanking (ss : List (List ℚ)) :
    ∀ (a : ArtifactRejector) (i m : ℕ),
      a.blanking_counter.length = a.last_good.length →
      (∀ s ∈ ss, s.length = a.blanking_counter.length) →
      i < a.blanking_counter.length →
      a.blanking_counter.getD i 0 = m →
      ss.length ≤ m →
      (∀ j < ss.length,
        ((a.run ss).1.getD j ([], [])).2.getD i false = true ∧
        ((a.run ss).1.getD j ([], [])).1.getD i 0 = a.last_good.getD i 0) ∧
      (a.run ss).2.blanking_counter.getD i 0 = m - ss.length ∧
      (a.run ss).2.last_good.getD i 0 = a.last_good.getD i 0 ∧
      (a.run ss).2.blanking_counter.length = a.blanking_counter.length ∧
      (a.run ss).2.last_good.length = a.last_good.length ∧
      (a.run ss).2.threshold = a.threshold ∧
      (a.run ss).2.blanking_samples = a.blanking_samples := by
  induction ss with
  | nil =>
    intro a i m h2 hss hi hc hm
    refine ⟨fun j hj => absurd hj (by simp), ?_, rfl, rfl, rfl, rfl, rfl⟩
    simpa [ArtifactRejector.run] using hc
  | cons s ss ih =>
    intro a i m h2 hss hi hc hm
    have hm1 : 1 ≤ m := le_trans (by simp) hm
    have hlen_s : s.length = a.blanking_counter.length := hss s (by simp)
    have hi' : i < s.length := by rw [hlen_s]; exact hi
    have hstep := process_getD a s i hlen_s h2 hi'
    have hcpos : 0 < a.blanking_counter.getD i 0 := by rw [hc]; omega
    simp only [chStep, if_pos hcpos] at hstep
    obtain ⟨hclean, hflag, hcnt, hlg⟩ := hstep
    obtain ⟨hL1, hL2⟩ := process_state_lengths a s hlen_s h2
    have h2' : (a.process s).2.blanking_counter.length =
        (a.process s).2.last_good.length := by rw [hL1, hL2, h2]
    have hss' : ∀ t ∈ ss, t.length = (a.process s).2.blanking_counter.length :=
      fun t ht => by rw [hL1]; exact hss t (List.mem_cons_of_mem _ ht)
    have hi'' : i < (a.process s).2.blanking_counter.length := by rw [hL1]; exact hi
    have hc' : (a.process s).2.blanking_counter.getD i 0 = m - 1 := by
      rw [hcnt, hc]
    have hm' : ss.length ≤ m - 1 := by
      have : ss.length + 1 ≤ m := by simpa using hm
      omega
    obtain ⟨hjs, hcfin, hlgfin, hlen1, hlen2, hthr, hbs⟩ :=
      ih (a.process s).2 i (m - 1) h2' hss' hi'' hc' hm'
    have hthr0 : (a.process s).2.threshold = a.threshold := rfl
    have hbs0 : (a.process s).2.blanking_samples = a.blanking_samples := rfl
    simp only [ArtifactRejector.run]
    refine ⟨?_, ?_, ?_, ?_, ?_, ?_, ?_⟩
    · intro j hj
      cases j with
      | zero => exact ⟨by simpa using hflag, by simpa using hclean⟩
      | succ j =>
        have hj' : j < ss.length := by simpa using hj
        obtain ⟨hf, hcl⟩ := hjs j hj'
        exact ⟨by simpa using hf, by simpa using hcl.trans hlg⟩
    · rw [List.length_cons]
      have : (((a.process s).2.run ss).2.blanking_counter.getD i 0) = m - 1 - ss.length :=
        hcfin
      rw [this]
      omega
    · rw [hlgfin, hlg]
    · rw [hlen1, hL1]
    · rw [hlen2, hL2]
    · rw [hthr, hthr0]
    · rw [hbs, hbs0]

/-! ## C6: artifact detection and blanking semantics -/

/-- **C6.** On each channel: a sample whose magnitude exceeds the threshold
while the channel's blanking counter is zero is flagged, replaced by the
last-good value and starts a window of `blanking_samples`; every one of the
next `k ≤ blanking_samples` samples on that channel is flagged and replaced
by the same last-good value regardless of its own magnitude; and once exactly
`blanking_samples` samples have been blanked the counter is exhausted, so the
next sample's flag is decided purely by its own magnitude against the
threshold (with `blanking_samples = 0` this applies to the sample immediately
after the detection). -/
theorem C6_blanking_semantics (a : ArtifactRejector) (sample : List ℚ)
    (ss : List (List ℚ)) (ch : ℕ)
    (hl1 : sample.length = a.blanking_counter.length)
    (hl2 : a.blanking_counter.length = a.last_good.length)
    (hss : ∀ s ∈ ss, s.length = a.blanking_counter.length)
    (hch : ch < sample.length)
    (hc0 : a.blanking_counter.getD ch 0 = 0)
    (hdet : a.threshold < |sample.getD ch 0|)
    (hwin : ss.length ≤ a.blanking_samples) :
    (a.process sample).1.2.getD ch false = true ∧
    (a.process sample).1.1.getD ch 0 = a.last_good.getD ch 0 ∧
    (a.process sample).2.blanking_counter.getD ch 0 = a.blanking_samples ∧
    (∀ j < ss.length,
      ((((a.process sample).2.run ss).1.getD j ([], [])).2.getD ch false = true ∧
       (((a.process sample).2.run ss).1.getD j ([], [])).1.getD ch 0 =
         a.last_good.getD ch 0)) ∧
    (ss.length = a.blanking_samples →
      (((a.process sample).2.run ss).2.blanking_counter.getD ch 0 = 0 ∧
       ∀ t : List ℚ, t.length = sample.length →
         ((((a.process sample).2.run ss).2.process t).1.2.getD ch false =
           decide (a.threshold < |t.getD ch 0|)))) := by
  have hstep := process_getD a sample ch hl1 hl2 hch
  have hnot : ¬(0 < a.blanking_counter.getD ch 0) := by rw [hc0]; omega
  simp only [chStep, if_neg hnot, if_pos hdet] at hstep
  obtain ⟨hclean, hflag, hcnt, hlg⟩ := hstep
  obtain ⟨hL1, hL2⟩ := process_state_lengths a sample hl1 hl2
  have h2' : (a.process sample).2.blanking_counter.length =
      (a.process sample).2.last_good.length := by rw [hL1, hL2, hl2]
  have hss' : ∀ t ∈ ss, t.length = (a.process sample).2.blanking_counter.length :=
    fun t ht => by rw [hL1]; exact hss t ht
  have hch' : ch < (a.process sample).2.blanking_counter.length := by
    rw [hL1, ← hl1]; exact hch
  obtain ⟨hjs, hcfin, hlgfin, hlen1, hlen2, hthr, hbs⟩ :=
    run_blanking ss (a.process sample).2 ch a.blanking_samples h2' hss' hch' hcnt hwin
  refine ⟨hflag, hclean, hcnt, ?_, ?_⟩
  · intro j hj
    obtain ⟨hf, hcl⟩ := hjs j hj
    exact ⟨hf, hcl.trans hlg⟩
  · intro hfull
    have hcfin0 : (((a.process sample).2.run ss).2.blanking_counter.getD ch 0) = 0 := by
      rw [hcfin, hfull, Nat.sub_self]
    refine ⟨hcfin0, ?_⟩
    intro t ht
    have hlt1 : t.length = (((a.process sample).2.run ss).2.blanking_counter.length) := by
      rw [hlen1, hL1, ← hl1, ht]
    have hlt2 : (((a.process sample).2.run ss).2.blanking_counter.length) =
        (((a.process sample).2.run ss).2.last_good.length) := by
      rw [hlen1, hlen2, hL1, hL2, hl2]
    have hcht : ch < t.length := by rw [ht]; exact hch
    have hstep2 := process_getD (((a.process sample).2.run ss).2) t ch hlt1 hlt2 hcht
    have hnot2 : ¬(0 < (((a.process sample).2.run ss).2.blanking_counter.getD ch 0)) := by
      rw [hcfin0]; omega
    simp only [chStep, if_neg hnot2] at hstep2
    rw [hstep2.2.1, hthr]
    have hthr0 : (a.process sample).2.threshold = a.threshold := rfl
    rw [hthr0]
    by_cases hmag : a.threshold < |t.getD ch 0|
    · rw [if_pos hmag]
      exact (decide_eq_true hmag).symm
    · rw [if_neg hmag]
      exact (decide_eq_false hmag).symm

/-- Witness for C6: threshold 10, blanking 2, detection at 100 µV followed by
two in-range samples that stay blanked, then normal evaluation. -/
theorem C6_blanking_semantics_witness :
    ([(100 : ℚ)].length = arC6w.blanking_counter.length ∧
      arC6w.blanking_counter.length = arC6w.last_good.length ∧
      (∀ s ∈ [[(5 : ℚ)], [7]], s.length = arC6w.blanking_counter.length) ∧
      0 < [(100 : ℚ)].length ∧
      arC6w.blanking_counter.getD 0 0 = 0 ∧
      arC6w.threshold < |[(100 : ℚ)].getD 0 0| ∧
      ([[(5 : ℚ)], [7]] : List (List ℚ)).length ≤ arC6w.blanking_samples) ∧
    ((arC6w.process [100]).1.2.getD 0 false = true ∧
     (arC6w.process [100]).1.1.getD 0 0 = arC6w.last_good.getD 0 0 ∧
     (arC6w.process [100]).2.blanking_counter.getD 0 0 = arC6w.blanking_samples ∧
     (∀ j < ([[(5 : ℚ)], [7]] : List (List ℚ)).length,
       ((((arC6w.process [100]).2.run [[5], [7]]).1.getD j ([], [])).2.getD 0 false = true ∧
        (((arC6w.process [100]).2.run [[5], [7]]).1.getD j ([], [])).1.getD 0 0 =
          arC6w.last_good.getD 0 0)) ∧
     (([[(5 : ℚ)], [7]] : List (List ℚ)).length = arC6w.blanking_samples →
       ((((arC6w.process [100]).2.run [[5], [7]]).2.blanking_counter.getD 0 0 = 0 ∧
        ∀ t : List ℚ, t.length = [(100 : ℚ)].length →
          ((((arC6w.process [100]).2.run [[5], [7]]).2.process t).1.2.getD 0 false =
            decide (arC6w.threshold < |t.getD 0 0|)))))) :=
  ⟨⟨by decide, by decide, by decide, by decide, by decide,
    by with_unfolding_all decide, by decide⟩,
   C6_blanking_semantics arC6w [100] [[5], [7]] 0 (by decide) (by decide) (by decide)
     (by decide) (by decide) (by with_unfolding_all decide) (by decide)⟩

/-! ## C8: artifact count versus flagged samples -/

theorem artifactLoop_flags_count (θ : ℚ) (b : ℕ) :
    ∀ (xs : List ℚ) (cs : List ℕ) (gs : List ℚ), xs.length = cs.length →
      cs.length = gs.length →
      (artifactLoop θ b xs cs gs).flags.count true =
        (artifactLoop θ b xs cs gs).detections +
          cs.countP (fun c => decide (0 < c)) := by
  intro xs
  induction xs with
  | nil =>
    intro cs gs h1 h2
    cases cs with
    | nil => simp [artifactLoop]
    | cons c cs => simp at h1
  | cons x xs ih =>
    intro cs gs h1 h2
    cases cs with
    | nil => simp at h1
    | cons c cs =>
      cases gs with
      | nil => simp at h2
      | cons g gs =>
        have h1' : xs.length = cs.length := by simpa using h1
        have h2' : cs.length = gs.length := by simpa using h2
        have hrec := ih cs gs h1' h2'
        simp only [artifactLoop]
        split_ifs with hc hx
        · simp [List.count_cons, List.countP_cons, hc, hrec]
          omega
        · simp [List.count_cons, List.countP_cons, hc, hrec]
          omega
        · simp [List.count_cons, List.countP_cons, hc, hrec]

/-- Over any run: the total number of flagged `(sample, channel)` pairs equals
the artifact-count increase plus the number of pairs replaced inside blanking
windows; `total_samples` counts the processed samples. -/
theorem run_flags_total (ss : List (List ℚ)) :
    ∀ a : ArtifactRejector,
      a.blanking_counter.length = a.last_good.length →
      (∀ s ∈ ss, s.length = a.blanking_counter.length) →
      runFlagsTotal (a.run ss).1 + a.artifact_count =
        (a.run ss).2.artifact_count + a.runBlankedTotal ss ∧
      (a.run ss).2.total_samples = a.total_samples + ss.length := by
  induction ss with
  | nil =>
    intro a h2 hss
    simp [ArtifactRejector.run, runFlagsTotal, ArtifactRejector.runBlankedTotal]
  | cons s ss ih =>
    intro a h2 hss
    have hlen_s : s.length = a.blanking_counter.length := hss s (by simp)
    have hcall := artifactLoop_flags_count a.threshold a.blanking_samples s
      a.blanking_counter a.last_good hlen_s h2
    obtain ⟨hL1, hL2⟩ := process_state_lengths a s hlen_s h2
    have h2' : (a.process s).2.blanking_counter.length =
        (a.process s).2.last_good.length := by rw [hL1, hL2, h2]
    have hss' : ∀ t ∈ ss, t.length = (a.process s).2.blanking_counter.length :=
      fun t ht => by rw [hL1]; exact hss t (List.mem_cons_of_mem _ ht)
    obtain ⟨ihF, ihT⟩ := ih (a.process s).2 h2' hss'
    have hflags : (a.process s).1.2 =
        (artifactLoop a.threshold a.blanking_samples s a.blanking_counter
          a.last_good).flags := rfl
    have hcount : (a.process s).2.artifact_count = a.artifact_count +
        (artifactLoop a.threshold a.blanking_samples s a.blanking_counter
          a.last_good).detections := rfl
    have htot : (a.process s).2.total_samples = a.total_samples + 1 := rfl
    constructor
    · simp only [ArtifactRejector.run, runFlagsTotal, ArtifactRejector.runBlankedTotal,
        List.map_cons, List.sum_cons]
      simp only [runFlagsTotal] at ihF
      rw [hflags, hcall]
      omega
    · simp only [ArtifactRejector.run]
      rw [ihT, htot, List.length_cons]
      omega

/-- **C8.** Starting from a freshly constructed rejector, over any run of
same-width samples: (i) `artifact_count` accounts exactly for the flagged
pairs that were *new detections* — flagged pairs = `artifact_count` + pairs
replaced during ongoing blanking windows, so blanked replacements never
increment the counter; (ii) `total_samples` is the number of processed
samples; and (iii) whenever any blanking replacement occurred, the reported
rate `artifact_count / total_samples` is strictly less than the flagged
fraction `flagged pairs / total_samples`. -/
theorem C8_artifact_rate (θ : ℚ) (blank n : ℕ) (ss : List (List ℚ))
    (hss : ∀ s ∈ ss, s.length = n) :
    runFlagsTotal ((ArtifactRejector.init θ blank n).run ss).1 =
      ((ArtifactRejector.init θ blank n).run ss).2.artifact_count +
        (ArtifactRejector.init θ blank n).runBlankedTotal ss ∧
    ((ArtifactRejector.init θ blank n).run ss).2.total_samples = ss.length ∧
    (0 < (ArtifactRejector.init θ blank n).runBlankedTotal ss →
      ((((ArtifactRejector.init θ blank n).run ss).2.artifact_count : ℚ) /
          ((((ArtifactRejector.init θ blank n).run ss).2.total_samples : ℕ) : ℚ) <
        ((runFlagsTotal ((ArtifactRejector.init θ blank n).run ss).1 : ℕ) : ℚ) /
          ((((ArtifactRejector.init θ blank n).run ss).2.total_samples : ℕ) : ℚ))) := by
  have hlen : (ArtifactRejector.init θ blank n).blanking_counter.length =
      (ArtifactRejector.init θ blank n).last_good.length := by
    simp [ArtifactRejector.init]
  have hss' : ∀ s ∈ ss, s.length =
      (ArtifactRejector.init θ blank n).blanking_counter.length := by
    intro s hs
    simpa [ArtifactRejector.init] using hss s hs
  obtain ⟨hF, hT⟩ := run_flags_total ss (ArtifactRejector.init θ blank n) hlen hss'
  have hF' : runFlagsTotal ((ArtifactRejector.init θ blank n).run ss).1 =
      ((ArtifactRejector.init θ blank n).run ss).2.artifact_count +
        (ArtifactRejector.init θ blank n).runBlankedTotal ss := by
    simpa [ArtifactRejector.init] using hF
  have hT' : ((ArtifactRejector.init θ blank n).run ss).2.total_samples = ss.length := by
    simpa [ArtifactRejector.init] using hT
  refine ⟨hF', hT', ?_⟩
  intro hB
  have hne : ss ≠ [] := by
    intro hnil
    rw [hnil] at hB
    simp [ArtifactRejector.runBlankedTotal] at hB
  have hTpos : 0 < ss.length := List.length_pos.mpr hne
  have hlt : ((ArtifactRejector.init θ blank n).run ss).2.artifact_count <
      runFlagsTotal ((ArtifactRejector.init θ blank n).run ss).1 := by omega
  rw [hT']
  have hcast : (0 : ℚ) < (ss.length : ℚ) := by exact_mod_cast hTpos
  rw [div_lt_div_iff_of_pos_right hcast]
  exact_mod_cast hlt

/-- Witness for C8: threshold 10, blanking 1, one channel; a detection at
100 µV followed by one blanked in-range sample. -/
theorem C8_artifact_rate_witness :
    (∀ s ∈ [[(100 : ℚ)], [0]], s.length = 1) ∧
    (runFlagsTotal ((ArtifactRejector.init 10 1 1).run [[100], [0]]).1 =
      ((ArtifactRejector.init 10 1 1).run [[100], [0]]).2.artifact_count +
        (ArtifactRejector.init 10 1 1).runBlankedTotal [[100], [0]] ∧
    ((ArtifactRejector.init 10 1 1).run [[100], [0]]).2.total_samples =
      ([[(100 : ℚ)], [0]] : List (List ℚ)).length ∧
    (0 < (ArtifactRejector.init 10 1 1).runBlankedTotal [[100], [0]] →
      ((((ArtifactRejector.init 10 1 1).run [[100], [0]]).2.artifact_count : ℚ) /
          (((((ArtifactRejector.init 10 1 1).run [[100], [0]]).2.total_samples : ℕ)) : ℚ) <
        ((runFlagsTotal ((ArtifactRejector.init 10 1 1).run [[100], [0]]).1 : ℕ) : ℚ) /
          (((((ArtifactRejector.init 10 1 1).run [[100], [0]]).2.total_samples : ℕ)) : ℚ)))) :=
  ⟨by decide, C8_artifact_rate 10 1 1 [[100], [0]] (by decide)⟩

/-! ## C9: last-good magnitude invariant -/

theorem artifactLoop_lastGood_mem (θ : ℚ) (b : ℕ) :
    ∀ (xs : List ℚ) (cs : List ℕ) (gs : List ℚ) (g' : ℚ),
      g' ∈ (artifactLoop θ b xs cs gs).lastGood → g' ∈ gs ∨ |g'| ≤ θ := by
  intro xs
  induction xs with
  | nil => intro cs gs g' h; simp [artifactLoop] at h
  | cons x xs ih =>
    intro cs gs g' h
    cases cs with
    | nil => simp [artifactLoop] at h
    | cons c cs =>
      cases gs with
      | nil => simp [artifactLoop] at h
      | cons g gs =>
        simp only [artifactLoop] at h
        split_ifs at h with hc hx
        · simp only [List.mem_cons] at h
          rcases h with hg | hmem
          · exact Or.inl (by simp [hg])
          · rcases ih cs gs g' hmem with hin | hb
            · exact Or.inl (List.mem_cons_of_mem _ hin)
            · exact Or.inr hb
        · simp only [List.mem_cons] at h
          rcases h with hg | hmem
          · exact Or.inl (by simp [hg])
          · rcases ih cs gs g' hmem with hin | hb
            · exact Or.inl (List.mem_cons_of_mem _ hin)
            · exact Or.inr hb
        · simp only [List.mem_cons] at h
          rcases h with hg | hmem
          · exact Or.inr (by rw [hg]; exact not_lt.mp hx)
          · rcases ih cs gs g' hmem with hin | hb
            · exact Or.inl (List.mem_cons_of_mem _ hin)
            · exact Or.inr hb

theorem artifactLoop_flag_mem (θ : ℚ) (b : ℕ) :
    ∀ (xs : List ℚ) (cs : List ℕ) (gs : List ℚ) (i : ℕ),
      (artifactLoop θ b xs cs gs).flags.getD i false = true →
      (artifactLoop θ b xs cs gs).cleaned.getD i 0 ∈ gs := by
  intro xs
  induction xs with
  | nil => intro cs gs i h; simp [artifactLoop] at h
  | cons x xs ih =>
    intro cs gs i h
    cases cs with
    | nil => simp [artifactLoop] at h
    | cons c cs =>
      cases gs with
      | nil => simp [artifactLoop] at h
      | cons g gs =>
        simp only [artifactLoop] at h ⊢
        split_ifs at h ⊢ with hc hx
        · cases i with
          | zero => simp
          | succ i =>
            simp only [List.getD_cons_succ] at h ⊢
            exact List.mem_cons_of_mem _ (ih cs gs i h)
        · cases i with
          | zero => simp
          | succ i =>
            simp only [List.getD_cons_succ] at h ⊢
            exact List.mem_cons_of_mem _ (ih cs gs i h)
        · cases i with
          | zero => simp at h
          | succ i =>
            simp only [List.getD_cons_succ] at h ⊢
            exact List.mem_cons_of_mem _ (ih cs gs i h)

/-- Reachable rejector states keep the construction parameters. -/
theorem reachable_fields (θ : ℚ) (blank n : ℕ) (a : ArtifactRejector)
    (ha : ArtifactRejector.Reachable θ blank n a) : a.threshold = θ := by
  induction ha with
  | init => rfl
  | step a' s ha' ih => simpa [ArtifactRejector.process] using ih

/-- **C9.** For a non-negative threshold, in every state the rejector can
reach from construction: every `last_good` entry has magnitude at most the
threshold (it starts at 0 and is only overwritten by samples that passed the
threshold check), and consequently every channel the rejector flags is output
with magnitude at most the threshold. -/
theorem C9_last_good_invariant (θ : ℚ) (blank n : ℕ) (hθ : 0 ≤ θ)
    (a : ArtifactRejector) (ha : ArtifactRejector.Reachable θ blank n a) :
    (∀ g ∈ a.last_good, |g| ≤ θ) ∧
    ∀ (sample : List ℚ) (i : ℕ),
      (a.process sample).1.2.getD i false = true →
      |(a.process sample).1.1.getD i 0| ≤ θ := by
  have hinv : ∀ a' : ArtifactRejector, ArtifactRejector.Reachable θ blank n a' →
      ∀ g ∈ a'.last_good, |g| ≤ θ := by
    intro a' ha'
    induction ha' with
    | init =>
      intro g hg
      rw [List.eq_of_mem_replicate hg]
      simpa using hθ
    | step a'' s ha'' ih =>
      intro g hg
      have hthr : a''.threshold = θ := reachable_fields θ blank n a'' ha''
      have hmem : g ∈ (artifactLoop a''.threshold a''.blanking_samples s
          a''.blanking_counter a''.last_good).lastGood := hg
      rcases artifactLoop_lastGood_mem a''.threshold a''.blanking_samples s
          a''.blanking_counter a''.last_good g hmem with hin | hb
      · exact ih g hin
      · rw [hthr] at hb
        exact hb
  refine ⟨hinv a ha, ?_⟩
  intro sample i hflag
  have hthr : a.threshold = θ := reachable_fields θ blank n a ha
  have hmem : (a.process sample).1.1.getD i 0 ∈ a.last_good :=
    artifactLoop_flag_mem a.threshold a.blanking_samples sample a.blanking_counter
      a.last_good i hflag
  exact hinv a ha _ hmem

/-- Witness for C9: threshold 1, blanking 2, one channel, at the
construction state. -/
theorem C9_last_good_invariant_witness :
    ((0 : ℚ) ≤ 1 ∧
      ArtifactRejector.Reachable 1 2 1 (ArtifactRejector.init 1 2 1)) ∧
    ((∀ g ∈ (ArtifactRejector.init 1 2 1).last_good, |g| ≤ 1) ∧
     ∀ (sample : List ℚ) (i : ℕ),
       ((ArtifactRejector.init 1 2 1).process sample).1.2.getD i false = true →
       |((ArtifactRejector.init 1 2 1).process sample).1.1.getD i 0| ≤ 1) :=
  ⟨⟨by norm_num, ArtifactRejector.Reachable.init⟩,
   C9_last_good_invariant 1 2 1 (by norm_num) (ArtifactRejector.init 1 2 1)
     ArtifactRejector.Reachable.init⟩

/-! ## C2: batch processing equals sequential processing -/

/-- One step of `IIRFilter.process_batch`: filtering the whole columns of
`r :: rs` equals filtering row `r` with `process` and then batch-filtering the
remaining rows from the updated state. -/
theorem process_batch_cons (sos : List SOSection) (n : ℕ)
    (zi : List (List (ℚ × ℚ))) (r : List ℚ) (rs : List (List ℚ)) :
    IIRFilter.process_batch ⟨sos, n, zi⟩ (r :: rs) =
      (((⟨sos, n, zi⟩ : IIRFilter).process r).1 ::
          ((((⟨sos, n, zi⟩ : IIRFilter).process r).2).process_batch rs).1,
        ((((⟨sos, n, zi⟩ : IIRFilter).process r).2).process_batch rs).2) := by
  simp only [IIRFilter.process_batch, IIRFilter.process, sosfilt_cons, sosfilt_nil,
    List.map_cons, List.map_map, List.length_cons, List.range_succ_eq_map,
    List.getD_cons_zero, List.getD_cons_succ, Function.comp_def]
  refine congrArg₂ Prod.mk (congrArg₂ List.cons rfl ?_) ?_
  · refine List.map_congr_left ?_
    intro i _
    refine List.map_congr_left ?_
    intro ch hch
    rw [getD_range_map _ _ (List.mem_range.mp hch)]
  · refine congrArg (IIRFilter.mk sos n) ?_
    refine List.map_congr_left ?_
    intro ch hch
    rw [getD_range_map _ _ (List.mem_range.mp hch)]

/-- **C2.** Batch processing is equivalent to sequential row-wise processing
from the same state: for every `IIRFilter` (whose per-channel state block
matches its channel count, as construction guarantees) and every sample
sequence, `process_batch` returns exactly the outputs and final state of
`process` applied to each row in order; and `DSPPipeline.process_batch`
likewise equals row-wise `DSPPipeline.process`.  In exact rational arithmetic
the outputs are equal outright, which subsumes the claimed 1e-10 floating
point tolerance. -/
theorem C2_batch_equals_sequential :
    (∀ (f : IIRFilter) (samples : List (List ℚ)),
      f.zi.length = f.num_channels →
      f.process_batch samples = f.processSeq samples) ∧
    (∀ (p : DSPPipeline) (samples : List (List ℚ)),
      p.process_batch samples = p.processSeq samples) := by
  constructor
  · have key : ∀ (samples : List (List ℚ)) (f : IIRFilter),
        f.zi.length = f.num_channels →
        f.process_batch samples = f.processSeq samples := by
      intro samples
      induction samples with
      | nil =>
        intro f hzi
        cases f with
        | mk sos n zi =>
          simp only at hzi
          simp only [IIRFilter.process_batch, IIRFilter.processSeq, List.map_nil,
            List.length_nil, List.range_zero, sosfilt_nil, List.map_map,
            Function.comp_def]
          rw [← hzi, range_map_getD]
      | cons r rs ih =>
        intro f hzi
        cases f with
        | mk sos n zi =>
          rw [process_batch_cons]
          have hzi' : (((⟨sos, n, zi⟩ : IIRFilter).process r).2).zi.length =
              (((⟨sos, n, zi⟩ : IIRFilter).process r).2).num_channels := by
            simp [IIRFilter.process]
          rw [ih _ hzi']
          rfl
    intro f samples h
    exact key samples f h
  · have key : ∀ (samples : List (List ℚ)) (p : DSPPipeline),
        p.process_batch samples = p.processSeq samples := by
      intro samples
      induction samples with
      | nil => intro p; rfl
      | cons s ss ih =>
        intro p
        simp only [DSPPipeline.process_batch, DSPPipeline.processSeq]
        rw [ih]
    intro p samples
    exact key samples p

/-- Witness for C2: a concrete two-section, two-channel filter on three
samples, and a concrete pipeline on two samples. -/
theorem C2_batch_equals_sequential_witness :
    (iirC2w.zi.length = iirC2w.num_channels ∧
      iirC2w.process_batch [[1, 2], [3, 4], [5, 6]] =
        iirC2w.processSeq [[1, 2], [3, 4], [5, 6]]) ∧
    pC2w.process_batch [[100], [7]] = pC2w.processSeq [[100], [7]] :=
  ⟨⟨by decide,
    C2_batch_equals_sequential.1 iirC2w [[1, 2], [3, 4], [5, 6]] (by decide)⟩,
   C2_batch_equals_sequential.2 pC2w [[100], [7]]⟩

/-! ## C1: stage order -/

/-- **C1 counterexample.** With CAR and artifact rejection both enabled,
`process` flags channels based on post-CAR values (here `[50, -50]`, both
beyond the ±10 threshold), whereas the claimed order — artifact thresholding
before CAR — would flag only channel 0 of the raw `[100, 0]`.  The flag
vectors differ, so artifact thresholding does not run before the CAR stage. -/
theorem C1_counterexample :
    (DSPPipeline.build cfgC1).map (fun p => (p.process [100, 0]).1.2) =
      .ok [true, true] ∧
    (DSPPipeline.build cfgC1).map (fun p => (claimOrderProcess p [100, 0]).2) =
      .ok [true, false] ∧
    ([true, true] : List Bool) ≠ [true, false] :=
  ⟨by with_unfolding_all decide, by with_unfolding_all decide, by decide⟩

/-- **C1 (amended).** For every configuration the pipeline builds, the filter
chain holds exactly the enabled stages in the canonical order DC block →
notch → bandpass → CAR → smoothing, and artifact rejection is applied after
the *entire* chain — i.e. after CAR and smoothing when those are enabled, not
before them: `process` output is the rejector applied to the full chain's
output (or the chain's output with all-false flags when rejection is
disabled). -/
theorem C1_stage_order (cfg : DSPConfig) (p : DSPPipeline)
    (hp : DSPPipeline.build cfg = .ok p) :
    p.filters.map Prod.fst = canonicalStageNames cfg ∧
    (cfg.artifact_enabled = true →
      p.artifact_rejector = some (ArtifactRejector.init cfg.artifact_threshold
          cfg.artifact_blanking cfg.num_channels) ∧
      ∀ sample, (p.process sample).1 =
        ((ArtifactRejector.init cfg.artifact_threshold cfg.artifact_blanking
            cfg.num_channels).process (foldStages p.filters sample).1).1) ∧
    (cfg.artifact_enabled = false →
      p.artifact_rejector = none ∧
      ∀ sample, (p.process sample).1 =
        ((foldStages p.filters sample).1,
          List.replicate cfg.num_channels false)) := by
  unfold DSPPipeline.build at hp
  cases hbf : buildFilters cfg with
  | error e => rw [hbf] at hp; exact absurd hp (by simp [Except.map])
  | ok fs =>
    rw [hbf] at hp
    simp only [Except.map, Except.ok.injEq] at hp
    subst hp
    unfold buildFilters at hbf
    cases hn : notchPart cfg with
    | error e => rw [hn] at hbf; exact absurd hbf (by simp [Except.bind])
    | ok f1 =>
      rw [hn] at hbf
      cases hb : bandpassPart cfg with
      | error e => rw [hb] at hbf; exact absurd hbf (by simp [Except.bind])
      | ok f2 =>
        rw [hb] at hbf
        simp only [Except.bind, Except.ok.injEq] at hbf
        have hdcn : (dcPart cfg).map Prod.fst =
            (if cfg.dc_block_enabled then ["DC Block"] else []) := by
          unfold dcPart; split_ifs <;> rfl
        have hcarn : (carPart cfg).map Prod.fst =
            (if cfg.car_enabled then ["CAR"] else []) := by
          unfold carPart; split_ifs <;> rfl
        have hsmn : (smoothPart cfg).map Prod.fst =
            (if cfg.smoothing_enabled then ["Smooth"] else []) := by
          unfold smoothPart; split_ifs <;> rfl
        have hn1 : f1.map Prod.fst = (if cfg.notch_enabled then ["Notch"] else []) := by
          unfold notchPart at hn
          split_ifs at hn with h
          · cases hi : NotchFilterBank.init cfg.notch_freq cfg.sample_rate
                cfg.notch_harmonics cfg.notch_q cfg.num_channels with
            | error e => rw [hi] at hn; exact absurd hn (by simp [Except.map])
            | ok nb =>
              rw [hi] at hn
              simp only [Except.map, Except.ok.injEq] at hn
              rw [← hn, if_pos h]; rfl
          · simp only [Except.ok.injEq] at hn
            rw [← hn, if_neg h]; rfl
        have hb1 : f2.map Prod.fst = (if cfg.bandpass_enabled then ["Bandpass"] else []) := by
          unfold bandpassPart at hb
          split_ifs at hb with h
          · cases hi : IIRFilter.create_bandpass cfg.highpass_freq cfg.lowpass_freq
                cfg.sample_rate cfg.filter_order cfg.num_channels with
            | error e => rw [hi] at hb; exact absurd hb (by simp [Except.map])
            | ok bp =>
              rw [hi] at hb
              simp only [Except.map, Except.ok.injEq] at hb
              rw [← hb, if_pos h]; rfl
          · simp only [Except.ok.injEq] at hb
            rw [← hb, if_neg h]; rfl
        refine ⟨?_, ?_, ?_⟩
        · rw [← hbf]
          simp only [List.map_append, hdcn, hcarn, hsmn, hn1, hb1, canonicalStageNames]
        · intro hen
          refine ⟨by simp [hen], ?_⟩
          intro sample
          simp [DSPPipeline.process, hen]
        · intro hen
          refine ⟨by simp [hen], ?_⟩
          intro sample
          simp [DSPPipeline.process, hen]

/-- Witness for C1 (amended): DC blocker enabled, everything else disabled. -/
theorem C1_stage_order_witness :
    DSPPipeline.build cfgC1w = .ok pC1w ∧
    (pC1w.filters.map Prod.fst = canonicalStageNames cfgC1w ∧
    (cfgC1w.artifact_enabled = true →
      pC1w.artifact_rejector = some (ArtifactRejector.init cfgC1w.artifact_threshold
          cfgC1w.artifact_blanking cfgC1w.num_channels) ∧
      ∀ sample, (pC1w.process sample).1 =
        ((ArtifactRejector.init cfgC1w.artifact_threshold cfgC1w.artifact_blanking
            cfgC1w.num_channels).process (foldStages pC1w.filters sample).1).1) ∧
    (cfgC1w.artifact_enabled = false →
      pC1w.artifact_rejector = none ∧
      ∀ sample, (pC1w.process sample).1 =
        ((foldStages pC1w.filters sample).1,
          List.replicate cfgC1w.num_channels false))) :=
  ⟨by with_unfolding_all decide,
   C1_stage_order cfgC1w pC1w (by with_unfolding_all decide)⟩

